import Mathlib

/-!
Verification of the score-aggregation logic of `src/app.py` (a Streamlit
tool that extracts per-student score lists from photographed score sheets
and computes a rounded final grade).

The embedding models:
* raw score values (Python ints/floats, strings, `None`) as `Score`;
  numeric values are taken as exact rationals;
* `calculate_final_score` (app.py lines 61-82): filter, sort descending,
  take the top `n`, average, round half away from zero via
  `decimal.ROUND_HALF_UP`. Two models of the line-65 filter are given:
  `calculate_final_score` restricts strings to the ASCII repertoire, on
  which `str.isdigit` accepts exactly `0`-`9` and `float` succeeds on
  every accepted string; `calculate_final_scoreU` refines it with
  Python's Unicode-aware `str.isdigit`, which also accepts decimal
  digits such as the fullwidth `１２３` (then converted by `float`) and
  digit-like characters such as `²` (on which `float` then raises);
* the per-file batch loop with its per-file error handling
  (app.py lines 92-118);
* the seat-number sort of the result table (app.py lines 126-130).
-/

namespace Grades

/-- A raw element of the score list handed to `calculate_final_score`.
Python values of type `int`/`float` are modelled as exact rationals
(`num`), strings as `str`, and `None` as `null`. -/
inductive Score where
  | num (q : ℚ)
  | str (s : String)
  | null
deriving DecidableEq

/-- Python `str.isdigit` restricted to ASCII strings, on which it accepts
exactly the nonempty strings of `0`-`9`. The Unicode-aware refinement
(which also accepts fullwidth digits and digit-like characters such as
`²`) is `pyIsDigitU` below. -/
def pyIsDigit (s : String) : Bool :=
  !s.data.isEmpty && s.data.all Char.isDigit

/-- Numeric value of a string of decimal digits (the value Python
`float(s)` produces on a digit string, which is an exact integer). -/
def digitsToNat (cs : List Char) : Nat :=
  cs.foldl (fun acc c => 10 * acc + (c.toNat - 48)) 0

/-- The filter of app.py line 65: `str(s).isdigit() or isinstance(s, (int, float))`,
on the ASCII string repertoire (the Unicode-aware refinement is
`keepScoreU` below). For a numeric value `isinstance` is true, so the
disjunction is true; for a string `s`, `str(s) = s` and `isinstance` is
false, so the condition is `s.isdigit()`; for `None`, `str(None) = "None"`
is not a digit string and `isinstance` is false. -/
def keepScore : Score → Bool
  | .num _ => true
  | .str s => pyIsDigit s
  | .null => false

/-- Python `float(s)` on our domain, restricted to the arguments that can
reach it inside `calculate_final_score` (numbers, and ASCII strings that
passed `isdigit`): a number converts to itself, a digit string to its
integer value, anything else fails (`float` raises). On ASCII digit
strings the conversion always succeeds; the Unicode refinement
`pyFloatU` below also models the digit-like strings on which it
raises. -/
def pyFloat : Score → Option ℚ
  | .num q => some q
  | .str s => if pyIsDigit s then some ((digitsToNat s.data : ℚ)) else none
  | .null => none

/-- The rounding step of app.py lines 77-82: `decimal.Decimal(avg)` is the
exact value of `avg`, `round(·, 0)` with context rounding
`decimal.ROUND_HALF_UP` rounds to the nearest integer with ties going away
from zero, and `int(·)` returns that integer. -/
def roundHalfUp (q : ℚ) : Int :=
  if 0 ≤ q then ⌊q + 1/2⌋ else -⌊-q + 1/2⌋

/-- `valid_scores.sort(reverse=True)` (app.py line 70): the scores sorted
in descending order. -/
def sortDesc (l : List ℚ) : List ℚ :=
  List.insertionSort (fun a b : ℚ => a ≥ b) l

/-- `calculate_final_score(scores, top_n)` of app.py lines 61-82, on the
ASCII string repertoire (the Unicode-aware refinement is
`calculate_final_scoreU` below). The fallible conversion `float(s)` is
sequenced through `Option` (a `none` models an uncaught exception
escaping the function). -/
def calculate_final_score (scores : List Score) (top_n : Nat) : Option Int :=
  if scores.isEmpty then
    some 0
  else do
    let valid_scores ← (scores.filter keepScore).mapM pyFloat
    if valid_scores.isEmpty then
      some 0
    else
      let top_scores := (sortDesc valid_scores).take top_n
      let avg := top_scores.sum / (top_scores.length : ℚ)
      some (roundHalfUp avg)

/-- Total value of a kept element (`float` never fails on kept elements). -/
def pyVal : Score → ℚ
  | .num q => q
  | .str s => (digitsToNat s.data : ℚ)
  | .null => 0

/-- The list of valid numeric values extracted from the raw scores. -/
def pyValid (scores : List Score) : List ℚ :=
  (scores.filter keepScore).map pyVal

/-- Arithmetic mean of a list of rationals (`sum(l)/len(l)`). -/
def pyAvg (l : List ℚ) : ℚ :=
  l.sum / (l.length : ℚ)

/-- Closed form of `calculate_final_score`: the value it always succeeds
with. -/
def finalScore (scores : List Score) (top_n : Nat) : Int :=
  if pyValid scores = [] then 0
  else roundHalfUp (pyAvg ((sortDesc (pyValid scores)).take top_n))

/-- The spec's filtering predicate, written from its words: retain an
element iff it is already numeric, or a string composed entirely of digit
characters (no sign, no decimal point); everything else (non-numeric
strings, null) is discarded. -/
def SpecRetained : Score → Prop
  | .num _ => True
  | .str s => s.data ≠ [] ∧ ∀ c ∈ s.data, '0' ≤ c ∧ c ≤ '9'
  | .null => False

/-- Unicode decimal digits (category `Nd`) of the repertoire modelled
here: the ASCII digits `0`-`9` and the fullwidth digits `０`-`９`
(U+FF10-U+FF19). These are the characters Python's `int()`/`float()`
parse as digits. Other `Nd` ranges of the Unicode database behave like
the fullwidth range; characters outside the repertoire are treated as
non-digits (an under-approximation, so no theorem below claims
completeness of the digit set). -/
def uniIsDecimal (c : Char) : Bool :=
  ('0' ≤ c && c ≤ '9') || ('０' ≤ c && c ≤ '９')

/-- Digit-like characters (Unicode `Numeric_Type=Digit`, not `Decimal`)
of the modelled repertoire: the superscripts `²`, `³` (U+00B2-U+00B3),
`¹` (U+00B9), `⁰` (U+2070), `⁴`-`⁹` (U+2074-U+2079) and the subscripts
`₀`-`₉` (U+2080-U+2089). Python's `str.isdigit` accepts them, but
`int()`/`float()` raise `ValueError` on them. -/
def uniIsDigitOnly (c : Char) : Bool :=
  ('²' ≤ c && c ≤ '³') || ('¹' ≤ c && c ≤ '¹') || ('⁰' ≤ c && c ≤ '⁰') ||
    ('⁴' ≤ c && c ≤ '⁹') || ('₀' ≤ c && c ≤ '₉')

/-- Python's Unicode-aware `c.isdigit()`: true on decimal digits and on
digit-like characters. -/
def uniIsDigit (c : Char) : Bool :=
  uniIsDecimal c || uniIsDigitOnly c

/-- Numeric value of a decimal digit of the modelled repertoire. -/
def uniDecimalVal (c : Char) : Nat :=
  if '0' ≤ c && c ≤ '9' then c.toNat - 48
  else if '０' ≤ c && c ≤ '９' then c.toNat - 0xFF10
  else 0

/-- Value of a string of Unicode decimal digits, as `float()` parses it
(`float("１２３") = 123.0`). -/
def digitsToNatU (cs : List Char) : Nat :=
  cs.foldl (fun acc c => 10 * acc + uniDecimalVal c) 0

/-- Python `str.isdigit` (Unicode-aware): the string is nonempty and
every character is a decimal digit or digit-like. -/
def pyIsDigitU (s : String) : Bool :=
  !s.data.isEmpty && s.data.all uniIsDigit

/-- The filter of app.py line 65 with the Unicode-aware `str.isdigit`. -/
def keepScoreU : Score → Bool
  | .num _ => true
  | .str s => pyIsDigitU s
  | .null => false

/-- Python `float(s)` with Unicode strings: it succeeds exactly on the
nonempty all-decimal-digit strings of the repertoire (so it raises —
`none` — on an `isdigit`-true string containing a digit-like character
such as `²`). -/
def pyFloatU : Score → Option ℚ
  | .num q => some q
  | .str s =>
    if !s.data.isEmpty && s.data.all uniIsDecimal then
      some ((digitsToNatU s.data : ℚ))
    else none
  | .null => none

/-- `calculate_final_score(scores, top_n)` of app.py lines 61-82 with the
Unicode-aware filter and conversion: the refinement of
`calculate_final_score` above. A `none` models the uncaught `ValueError`
that `float()` raises inside the list comprehension. -/
def calculate_final_scoreU (scores : List Score) (top_n : Nat) : Option Int :=
  if scores.isEmpty then
    some 0
  else do
    let valid_scores ← (scores.filter keepScoreU).mapM pyFloatU
    if valid_scores.isEmpty then
      some 0
    else
      let top_scores := (sortDesc valid_scores).take top_n
      let avg := top_scores.sum / (top_scores.length : ℚ)
      some (roundHalfUp avg)

/-- The JSON object returned by the AI extraction step
(`{"seat_number": ..., "valid_scores": [...]}`); either key may be absent
(`data.get` is used with a default at app.py lines 107-108). -/
structure ScoreData where
  seat_number : Option String
  valid_scores : Option (List Score)
deriving DecidableEq

/-- One row of the result table (app.py lines 111-116): original
filename, seat number (default `"未知"`), the computed final score, and
the raw score list kept for manual audit. -/
structure Row where
  filename : String
  seat : String
  final : Option Int
  raw : List Score
deriving DecidableEq

/-- Builds the result row appended by the main loop
(app.py lines 107-116). -/
def mkRow (top_n : Nat) (filename : String) (d : ScoreData) : Row :=
  { filename := filename
    seat := d.seat_number.getD "未知"
    final := calculate_final_score (d.valid_scores.getD []) top_n
    raw := d.valid_scores.getD [] }

/-- Python `str.strip` (whitespace removed from both ends), on the
character list. -/
def trimChars (l : List Char) : List Char :=
  ((l.dropWhile Char.isWhitespace).reverse.dropWhile Char.isWhitespace).reverse

/-- Value of a nonempty all-digit character sequence, `none` otherwise. -/
def digitsValue (cs : List Char) : Option Nat :=
  if cs.isEmpty then none
  else if cs.all Char.isDigit then some (digitsToNat cs) else none

/-- Python `int(s)` on a string (used by `astype(int)` at app.py line
127): surrounding whitespace is ignored, an optional sign is followed by
at least one digit; anything else raises, modelled as `none`. -/
def pyInt (s : String) : Option Int :=
  match trimChars s.data with
  | [] => none
  | c :: cs =>
    if c = '-' then (digitsValue cs).map (fun n => -(n : Int))
    else if c = '+' then (digitsValue cs).map (fun n => (n : Int))
    else (digitsValue (c :: cs)).map (fun n => (n : Int))

/-- The numeric sort key of a row: its parsed seat number (only used on
rows whose seat number parses). -/
def seatKey (r : Row) : Int :=
  (pyInt r.seat).getD 0

/-- Numeric order on rows: ascending by parsed seat number
(the `座號_Int` sort of app.py line 128). -/
def rowLeNum (a b : Row) : Prop :=
  seatKey a ≤ seatKey b

/-- Lexicographic comparison of two strings as Python compares them:
character by character by code point, a proper prefix coming first. -/
def lexLe : List Char → List Char → Bool
  | [], _ => true
  | _ :: _, [] => false
  | a :: as, b :: bs =>
    if a < b then true
    else if b < a then false
    else lexLe as bs

/-- Lexicographic order on rows: ascending by the seat-number string
(the fallback sort of app.py line 130). -/
def rowLeStr (a b : Row) : Prop :=
  lexLe a.seat.data b.seat.data = true

instance : DecidableRel rowLeNum :=
  fun a b => inferInstanceAs (Decidable (seatKey a ≤ seatKey b))

instance : DecidableRel rowLeStr :=
  fun a b => inferInstanceAs (Decidable (lexLe a.seat.data b.seat.data = true))

instance : IsTotal Row rowLeNum :=
  ⟨fun a b => Int.le_total (seatKey a) (seatKey b)⟩

instance : IsTrans Row rowLeNum :=
  ⟨fun _ _ _ h1 h2 => le_trans h1 h2⟩

/-- The seat-number ordering of the result table (app.py lines 126-130):
try to parse every seat number as an integer and sort ascending by it;
if any seat number fails to parse (the `except` branch), sort the whole
collection by the seat-number string instead. -/
def sortRows (rows : List Row) : List Row :=
  if rows.all (fun r => (pyInt r.seat).isSome) then
    List.insertionSort rowLeNum rows
  else
    List.insertionSort rowLeStr rows

/-- A sample audit row used in concrete instances. -/
def mkSample (f s : String) : Row :=
  { filename := f, seat := s, final := some 0, raw := [] }

/-- The result set of the spec's sort-fallback example: seat numbers
`"1"`, `"2"`, `"10"`, `"N/A"`. -/
def sampleRows : List Row :=
  [mkSample "a.jpg" "1", mkSample "b.jpg" "2", mkSample "c.jpg" "10",
    mkSample "d.jpg" "N/A"]

/-- A result set whose seat numbers all parse as integers. -/
def sampleNumRows : List Row :=
  [mkSample "a.jpg" "2", mkSample "b.jpg" "1"]

/-- Outcome of the external `model.generate_content` call
(app.py line 54): either the response text, or a raised exception with
its message. -/
inductive ApiResult where
  | reply (text : String)
  | exn (msg : String)

/-- Removes the next `fuel` positions worth of occurrences of `pat`
(leftmost, non-overlapping), the recursion of `stripAll`. -/
def stripAllFuel (pat : List Char) : Nat → List Char → List Char
  | _, [] => []
  | 0, l => l
  | fuel + 1, c :: rest =>
    if pat.isPrefixOf (c :: rest) && !pat.isEmpty then
      stripAllFuel pat fuel (rest.drop (pat.length - 1))
    else
      c :: stripAllFuel pat fuel rest

/-- Python `s.replace(pat, "")`: every leftmost, non-overlapping
occurrence of `pat` is removed. -/
def stripAll (pat l : List Char) : List Char :=
  stripAllFuel pat l.length l

/-- The response clean-up of app.py line 56:
`response.text.replace("```json", "").replace("```", "").strip()`. -/
def cleanJson (t : String) : String :=
  String.mk (trimChars (stripAll "```".data (stripAll "```json".data t.data)))

/-- The message `json.loads` raises on unparseable input, which the
`except` branch stringifies into the error dict. -/
def jsonErrMsg : String :=
  "Expecting value: line 1 column 1 (char 0)"

/-- `process_image_with_gemini` (app.py lines 28-59), with the external
model call abstracted as its outcome `r` and `json.loads` abstracted as
`parse`. A raised exception (API failure, or a JSON-parse failure after
the code fences are stripped) is caught and turned into the error dict
`{"error": str(e)}`, modelled as `Except.error`. -/
def process_image_with_gemini (parse : String → Option ScoreData)
    (r : ApiResult) : Except String ScoreData :=
  match r with
  | .exn m => .error m
  | .reply t =>
    match parse (cleanJson t) with
    | some d => .ok d
    | none => .error jsonErrMsg

/-- The per-file error message shown by `st.error` (app.py line 103). -/
def errMsg (filename msg : String) : String :=
  "處理 " ++ filename ++ " 時發生錯誤: " ++ msg

/-- The main batch loop (app.py lines 92-118): each file's extraction
outcome is processed in order; an error dict is reported and the file is
skipped (`continue`), a success contributes one result row. Returns the
collected rows and the reported error messages. -/
def runBatch (parse : String → Option ScoreData) (top_n : Nat) :
    List (String × ApiResult) → List Row × List String
  | [] => ([], [])
  | f :: rest =>
    match process_image_with_gemini parse f.2 with
    | .error e =>
      let acc := runBatch parse top_n rest
      (acc.1, errMsg f.1 e :: acc.2)
    | .ok d =>
      let acc := runBatch parse top_n rest
      (mkRow top_n f.1 d :: acc.1, acc.2)

/-- A toy JSON parser for concrete instances: succeeds exactly on the
cleaned text `"OK"`. -/
def toyParse : String → Option ScoreData :=
  fun s => if s = "OK" then some ⟨some "1", some [Score.num 90]⟩ else none

theorem pyFloat_of_keep {v : Score} (h : keepScore v = true) :
    pyFloat v = some (pyVal v) := by
  cases v with
  | num q => rfl
  | str s => simp [keepScore] at h; simp [pyFloat, pyVal, h]
  | null => simp [keepScore] at h

theorem mapM_pyFloat (l : List Score) (h : ∀ v ∈ l, keepScore v = true) :
    l.mapM pyFloat = some (l.map pyVal) := by
  induction l with
  | nil => rfl
  | cons a l ih =>
    rw [List.mapM_cons, pyFloat_of_keep (h a (List.mem_cons_self a l)),
      ih (fun v hv => h v (List.mem_cons_of_mem a hv))]
    rfl

theorem calc_eq_finalScore (scores : List Score) (top_n : Nat) :
    calculate_final_score scores top_n = some (finalScore scores top_n) := by
  unfold calculate_final_score finalScore
  by_cases hs : scores.isEmpty
  · have : scores = [] := List.isEmpty_iff.mp hs
    subst this
    simp [pyValid]
  · rw [if_neg hs]
    rw [mapM_pyFloat _ (fun v hv => (List.mem_filter.mp hv).2)]
    show (if (pyValid scores).isEmpty then some 0 else _) = _
    by_cases hv : pyValid scores = []
    · simp [hv]
    · rw [if_neg (by simpa using hv), if_neg hv]
      rfl

theorem sortDesc_perm (l : List ℚ) : List.Perm (sortDesc l) l :=
  List.perm_insertionSort _ l

theorem sortDesc_sorted (l : List ℚ) :
    List.Sorted (fun a b : ℚ => a ≥ b) (sortDesc l) :=
  List.sorted_insertionSort _ l

theorem sortDesc_eq_of_perm {l₁ l₂ : List ℚ} (h : List.Perm l₁ l₂) :
    sortDesc l₁ = sortDesc l₂ :=
  List.eq_of_perm_of_sorted
    ((sortDesc_perm l₁).trans (h.trans (sortDesc_perm l₂).symm))
    (sortDesc_sorted l₁) (sortDesc_sorted l₂)

theorem finalScore_congr {l₁ l₂ : List Score} (n : Nat)
    (h : List.Perm (pyValid l₁) (pyValid l₂)) :
    finalScore l₁ n = finalScore l₂ n := by
  unfold finalScore
  by_cases h1 : pyValid l₁ = []
  · rw [h1] at h
    rw [if_pos h1, if_pos h.symm.eq_nil]
  · have h2 : pyValid l₂ ≠ [] := fun h2 => h1 (by rw [h2] at h; exact h.eq_nil)
    rw [if_neg h1, if_neg h2, sortDesc_eq_of_perm h]

/-- Claim C1: `calculate_final_score` rounds its mean half away from zero
(commercial rounding): whenever the mean of the selected scores is
exactly `X.5` with `X ≥ 0`, the result is `X + 1` (never the even
neighbour), and on the spec's example
`[90, 85, "70", "abc", None]` with `top_n = 2` the mean `87.5` yields
`88`. -/
theorem claim_rounding_half_away :
    (∀ (scores : List Score) (top_n : Nat) (X : ℤ), 0 ≤ X →
        pyValid scores ≠ [] →
        pyAvg ((sortDesc (pyValid scores)).take top_n) = (X : ℚ) + 1 / 2 →
        calculate_final_score scores top_n = some (X + 1)) ∧
      calculate_final_score
        [.num 90, .num 85, .str "70", .str "abc", .null] 2 = some 88 := by
  constructor
  · intro scores top_n X hX hne havg
    rw [calc_eq_finalScore]
    unfold finalScore
    rw [if_neg hne, havg]
    unfold roundHalfUp
    have hX0 : (0 : ℚ) ≤ (X : ℚ) := by exact_mod_cast hX
    rw [if_pos (by linarith)]
    have : (X : ℚ) + 1 / 2 + 1 / 2 = ((X + 1 : ℤ) : ℚ) := by push_cast; ring
    rw [this, Int.floor_intCast]
  · rw [calc_eq_finalScore]
    norm_num [finalScore, pyValid, keepScore, (show pyIsDigit "70" = true from rfl),
      (show pyIsDigit "abc" = false from rfl), pyVal,
      (show digitsToNat "70".data = 70 from rfl), sortDesc, pyAvg, roundHalfUp,
      List.cons_ne_nil]

/-- Witness for C1 at `[88, 89]`, `top_n = 2`: the selected mean is
exactly `88.5` and the result is `89`. -/
theorem claim_rounding_half_away_witness :
    calculate_final_score [Score.num 88, Score.num 89] 2 = some 89 := by
  have h := claim_rounding_half_away.1 [Score.num 88, Score.num 89] 2 88
    (by norm_num)
    (by norm_num [pyValid, keepScore, pyVal, List.cons_ne_nil])
    (by norm_num [pyValid, keepScore, pyVal, sortDesc, pyAvg])
  simpa using h

/-- Claim C2: the selected values are the first `min(top_n, count)` of
the filtered values sorted descending; when fewer than `top_n` valid
scores exist all are used, with no error and no padding
(`calculate_final_score [88, 89] 12 = 89`). -/
theorem claim_topn_selection :
    (∀ (scores : List Score) (top_n : Nat), 1 ≤ top_n →
        pyValid scores ≠ [] →
        ((sortDesc (pyValid scores)).take top_n).length
            = min top_n (pyValid scores).length ∧
          calculate_final_score scores top_n
            = some (roundHalfUp (pyAvg ((sortDesc (pyValid scores)).take top_n)))) ∧
      calculate_final_score [.num 88, .num 89] 12 = some 89 := by
  constructor
  · intro scores top_n _ hne
    constructor
    · rw [List.length_take, (sortDesc_perm (pyValid scores)).length_eq]
    · rw [calc_eq_finalScore]
      unfold finalScore
      rw [if_neg hne]
  · rw [calc_eq_finalScore]
    norm_num [finalScore, pyValid, keepScore, pyVal, sortDesc, pyAvg, roundHalfUp,
      List.cons_ne_nil]

/-- Witness for C2 at `[88, 89]`, `top_n = 12`: only `min 12 2 = 2`
values are selected and the call succeeds. -/
theorem claim_topn_selection_witness :
    ((sortDesc (pyValid [Score.num 88, Score.num 89])).take 12).length
        = min 12 (pyValid [Score.num 88, Score.num 89]).length ∧
      calculate_final_score [Score.num 88, Score.num 89] 12
        = some (roundHalfUp
            (pyAvg ((sortDesc (pyValid [Score.num 88, Score.num 89])).take 12))) :=
  claim_topn_selection.1 [Score.num 88, Score.num 89] 12 (by norm_num)
    (by norm_num [pyValid, keepScore, pyVal, List.cons_ne_nil])

theorem charLe_iff {a b : Char} : a ≤ b ↔ a.toNat ≤ b.toNat :=
  Iff.rfl

theorem uniIsDigit_ascii {c : Char} (h : c.toNat < 128) :
    uniIsDigit c = true ↔ '0' ≤ c ∧ c ≤ '9' := by
  simp only [uniIsDigit, uniIsDecimal, uniIsDigitOnly, Bool.or_eq_true,
    Bool.and_eq_true, decide_eq_true_eq]
  constructor
  · rintro ((⟨h1, h2⟩ | ⟨h1, h2⟩) |
      ((((⟨h1, h2⟩ | ⟨h1, h2⟩) | ⟨h1, h2⟩) | ⟨h1, h2⟩) | ⟨h1, h2⟩))
    · exact ⟨h1, h2⟩
    · have h3 := charLe_iff.mp h1
      rw [(show ('０' : Char).toNat = 65296 from rfl)] at h3
      omega
    · have h3 := charLe_iff.mp h1
      rw [(show ('²' : Char).toNat = 178 from rfl)] at h3
      omega
    · have h3 := charLe_iff.mp h1
      rw [(show ('¹' : Char).toNat = 185 from rfl)] at h3
      omega
    · have h3 := charLe_iff.mp h1
      rw [(show ('⁰' : Char).toNat = 8304 from rfl)] at h3
      omega
    · have h3 := charLe_iff.mp h1
      rw [(show ('⁴' : Char).toNat = 8308 from rfl)] at h3
      omega
    · have h3 := charLe_iff.mp h1
      rw [(show ('₀' : Char).toNat = 8320 from rfl)] at h3
      omega
  · intro hd
    exact Or.inl (Or.inl hd)

/-- Counterexample to claim C3 as stated: the fullwidth digit string
`"１２３"` is not composed of the digits `0`-`9` (it is outside the
spec's digit-string set), yet Python's Unicode `isdigit` accepts it, so
line 65 retains it and the call counts it toward the mean:
`calculate_final_score(["１２３"], 1)` returns `123`, not `0`. -/
theorem claim_filtering_counterexample :
    keepScoreU (Score.str "１２３") = true ∧
      ¬ SpecRetained (Score.str "１２３") ∧
      calculate_final_scoreU [Score.str "１２３"] 1 = some 123 := by
  refine ⟨rfl, ?_, ?_⟩
  · simp only [SpecRetained]
    decide
  · unfold calculate_final_scoreU
    rw [if_neg (by decide)]
    rw [(show (([Score.str "１２３"] : List Score).filter keepScoreU).mapM pyFloatU
        = some [((123 : Nat) : ℚ)] from rfl)]
    show (if ([((123 : Nat) : ℚ)] : List ℚ).isEmpty = true then some 0 else _) = _
    rw [if_neg (by decide)]
    norm_num [sortDesc, roundHalfUp]

/-- Claim C3 (amended): the line-65 filter retains exactly the elements
that are numeric or whose string is nonempty and entirely of Unicode
digit characters; on ASCII strings this coincides with the spec's
digit-string set (`SpecRetained`); a retained string containing a
non-decimal (digit-like) character is not discarded silently — its
`float()` conversion fails; and discarded elements never influence the
result: the call computes the same value on the input as on its
retained sublist. -/
theorem claim_filtering_amended :
    (∀ s : String, (∀ c ∈ s.data, c.toNat < 128) →
        (keepScoreU (Score.str s) = true ↔ SpecRetained (Score.str s))) ∧
      (∀ s : String, (∃ c ∈ s.data, uniIsDecimal c = false) →
          pyFloatU (Score.str s) = none) ∧
      ∀ (scores : List Score) (n : Nat),
        calculate_final_scoreU scores n
          = calculate_final_scoreU (scores.filter keepScoreU) n := by
  refine ⟨?_, ?_, ?_⟩
  · intro s hA
    simp only [keepScoreU, pyIsDigitU, SpecRetained, Bool.and_eq_true,
      Bool.not_eq_true', List.isEmpty_eq_false, List.all_eq_true]
    constructor
    · rintro ⟨h1, h2⟩
      exact ⟨h1, fun c hc => (uniIsDigit_ascii (hA c hc)).mp (h2 c hc)⟩
    · rintro ⟨h1, h2⟩
      exact ⟨h1, fun c hc => (uniIsDigit_ascii (hA c hc)).mpr (h2 c hc)⟩
  · intro s hex
    obtain ⟨c, hc, hcd⟩ := hex
    have hall : s.data.all uniIsDecimal = false := by
      by_cases h : s.data.all uniIsDecimal = true
      · exact absurd (List.all_eq_true.mp h c hc) (by simp [hcd])
      · simpa using h
    simp [pyFloatU, hall]
  · intro scores n
    have hff : (scores.filter keepScoreU).filter keepScoreU
        = scores.filter keepScoreU := by
      simp [List.filter_filter]
    unfold calculate_final_scoreU
    by_cases h1 : scores.isEmpty = true
    · have : scores = [] := List.isEmpty_iff.mp h1
      subst this
      rfl
    · rw [if_neg h1]
      by_cases h2 : (scores.filter keepScoreU).isEmpty = true
      · have hf : scores.filter keepScoreU = [] := List.isEmpty_iff.mp h2
        rw [hf]
        rfl
      · rw [if_neg h2, hff]

/-- Witness for the amended C3: the ASCII coincidence at `"70"`, the
failing conversion at `"²"`, and the filter-invariance at a concrete
mixed input. -/
theorem claim_filtering_amended_witness :
    (keepScoreU (Score.str "70") = true ↔ SpecRetained (Score.str "70")) ∧
      pyFloatU (Score.str "²") = none ∧
      calculate_final_scoreU [Score.str "abc", Score.num 5] 3
        = calculate_final_scoreU
            ([Score.str "abc", Score.num 5].filter keepScoreU) 3 :=
  ⟨claim_filtering_amended.1 "70" (by decide),
    claim_filtering_amended.2.1 "²" (by decide),
    claim_filtering_amended.2.2 [Score.str "abc", Score.num 5] 3⟩

/-- Claim C5 (code bug): the claim says the function returns an integer
on every input, never an exception, but `"²".isdigit()` is true so the
string passes the line-65 filter, and `float("²")` then raises an
uncaught `ValueError`: `calculate_final_score(["²"], 1)` crashes. In the
refined model the kept element fails conversion and the call aborts
(`none`) instead of producing an integer. -/
theorem claim_no_error_crash :
    keepScoreU (Score.str "²") = true ∧
      pyFloatU (Score.str "²") = none ∧
      calculate_final_scoreU [Score.str "²"] 1 = none := by
  refine ⟨rfl, rfl, ?_⟩
  rfl

/-- Claim C6: `calculate_final_score` is deterministic and
permutation-invariant: permuting the input list does not change the
result, and more generally the result depends only on the multiset of
valid numeric values extracted from the input. -/
theorem claim_permutation_invariant :
    (∀ (l₁ l₂ : List Score) (n : Nat), List.Perm l₁ l₂ →
        calculate_final_score l₁ n = calculate_final_score l₂ n) ∧
      ∀ (l₁ l₂ : List Score) (n : Nat), List.Perm (pyValid l₁) (pyValid l₂) →
        calculate_final_score l₁ n = calculate_final_score l₂ n := by
  have key : ∀ (l₁ l₂ : List Score) (n : Nat),
      List.Perm (pyValid l₁) (pyValid l₂) →
      calculate_final_score l₁ n = calculate_final_score l₂ n := by
    intro l₁ l₂ n h
    rw [calc_eq_finalScore, calc_eq_finalScore, finalScore_congr n h]
  exact ⟨fun l₁ l₂ n h => key l₁ l₂ n ((h.filter keepScore).map pyVal), key⟩

/-- Witness for C6 on a concrete transposition. -/
theorem claim_permutation_invariant_witness :
    calculate_final_score [Score.num 1, Score.num 2] 5
      = calculate_final_score [Score.num 2, Score.num 1] 5 :=
  claim_permutation_invariant.1 _ _ 5 (List.Perm.swap (Score.num 2) (Score.num 1) [])

/-- Claim C7: the degenerate case returns `0` without error: for every
`top_n ≥ 1`, an empty input list, or any input list with no surviving
element, yields `some 0`. -/
theorem claim_degenerate_zero :
    ∀ top_n : Nat, 1 ≤ top_n →
      calculate_final_score [] top_n = some 0 ∧
        ∀ scores : List Score, pyValid scores = [] →
          calculate_final_score scores top_n = some 0 := by
  intro top_n _
  constructor
  · rw [calc_eq_finalScore]
    rfl
  · intro scores h
    rw [calc_eq_finalScore]
    unfold finalScore
    rw [if_pos h]

/-- Witness for C7 at `top_n = 12`, on the empty list and on a list with
no valid element. -/
theorem claim_degenerate_zero_witness :
    calculate_final_score [] 12 = some 0 ∧
      calculate_final_score [Score.str "abc", Score.null] 12 = some 0 :=
  ⟨(claim_degenerate_zero 12 (by norm_num)).1,
    (claim_degenerate_zero 12 (by norm_num)).2 [Score.str "abc", Score.null] rfl⟩

/-- Claim C10: range preservation: if every surviving numeric value lies
in `[0, 100]` and `top_n ≥ 1`, the final score lies in `[0, 100]`, even
though no clamping is performed. -/
theorem claim_range_preserved :
    ∀ (scores : List Score) (n : Nat), 1 ≤ n →
      (∀ q ∈ pyValid scores, 0 ≤ q ∧ q ≤ 100) →
      ∃ k : ℤ, calculate_final_score scores n = some k ∧ 0 ≤ k ∧ k ≤ 100 := by
  intro scores n hn hbound
  refine ⟨finalScore scores n, calc_eq_finalScore scores n, ?_⟩
  unfold finalScore
  by_cases h0 : pyValid scores = []
  · rw [if_pos h0]
    norm_num
  · rw [if_neg h0]
    have hmem : ∀ q ∈ (sortDesc (pyValid scores)).take n, 0 ≤ q ∧ q ≤ 100 :=
      fun q hq =>
        hbound q ((sortDesc_perm (pyValid scores)).subset
          (List.take_subset n _ hq))
    have hlen : 1 ≤ ((sortDesc (pyValid scores)).take n).length := by
      rw [List.length_take, (sortDesc_perm (pyValid scores)).length_eq]
      exact le_min hn (List.length_pos.mpr h0)
    set l := (sortDesc (pyValid scores)).take n with hl
    have hsum0 : 0 ≤ l.sum := List.sum_nonneg fun q hq => (hmem q hq).1
    have hsum1 : l.sum ≤ (l.length : ℚ) * 100 := by
      have h := List.sum_le_card_nsmul l 100 fun q hq => (hmem q hq).2
      simpa [nsmul_eq_mul, mul_comm] using h
    have hlpos : (0 : ℚ) < (l.length : ℚ) := by exact_mod_cast hlen
    have havg0 : 0 ≤ pyAvg l := div_nonneg hsum0 hlpos.le
    have havg1 : pyAvg l ≤ 100 := by
      rw [pyAvg, div_le_iff₀ hlpos]
      linarith
    unfold roundHalfUp
    rw [if_pos havg0]
    constructor
    · exact Int.le_floor.mpr (by push_cast; linarith)
    · have hlt : ⌊pyAvg l + 1 / 2⌋ < 101 := Int.floor_lt.mpr (by push_cast; linarith)
      omega

/-- Witness for C10 on `[95, 85]`, `top_n = 1`. -/
theorem claim_range_preserved_witness :
    ∃ k : ℤ, calculate_final_score [Score.num 95, Score.num 85] 1 = some k ∧
      0 ≤ k ∧ k ≤ 100 := by
  refine claim_range_preserved [Score.num 95, Score.num 85] 1 (by norm_num) ?_
  intro q hq
  have h : q ∈ [(95 : ℚ), 85] := hq
  simp only [List.mem_cons, List.mem_singleton, List.not_mem_nil] at h
  rcases h with h | h | h
  · subst h; norm_num
  · subst h; norm_num
  · cases h

/-- Claim C4 (code bug): the spec demands that the mean be computed as an
exact decimal quantity; under that exact semantics (which this embedding
uses for its rationals) the input `[53.08, 20.6, 6.74, 95.82]` with
`top_n = 3` has selected mean exactly `56.5` and must round to `57`.
CPython however evaluates `sum(top_scores) / len(top_scores)` in binary
doubles, obtaining `56.49999999999999` (the double sum of the top three
values is `169.49999999999997`), converts that artifact exactly into
`Decimal`, and returns `56`. -/
theorem claim_exact_decimal_demand :
    calculate_final_score
        [.num 53.08, .num 20.6, .num 6.74, .num 95.82] 3 = some 57 ∧
      pyAvg ((sortDesc (pyValid
          [.num 53.08, .num 20.6, .num 6.74, .num 95.82])).take 3)
        = 56.5 := by
  constructor
  · rw [calc_eq_finalScore]
    norm_num [finalScore, pyValid, keepScore, pyVal, sortDesc, pyAvg, roundHalfUp,
      List.cons_ne_nil]
  · norm_num [pyValid, keepScore, pyVal, sortDesc, pyAvg]

theorem lexLe_total : ∀ x y : List Char, lexLe x y = true ∨ lexLe y x = true
  | [], _ => Or.inl rfl
  | _ :: _, [] => Or.inr rfl
  | a :: as, b :: bs => by
    by_cases h1 : a < b
    · left
      simp [lexLe, h1]
    · by_cases h2 : b < a
      · right
        simp [lexLe, h2]
      · cases lexLe_total as bs with
        | inl h => left; simp [lexLe, h1, h2, h]
        | inr h => right; simp [lexLe, h1, h2, h]

theorem lexLe_trans :
    ∀ x y z : List Char, lexLe x y = true → lexLe y z = true → lexLe x z = true
  | [], _, _, _, _ => rfl
  | _ :: _, [], _, h1, _ => by simp [lexLe] at h1
  | _ :: _, _ :: _, [], _, h2 => by simp [lexLe] at h2
  | a :: as, b :: bs, c :: cs, h1, h2 => by
    by_cases hab : a < b <;> by_cases hbc : b < c
    · simp [lexLe, lt_trans hab hbc]
    · by_cases hcb : c < b
      · rw [lexLe, if_neg hbc, if_pos hcb] at h2
        exact absurd h2 (by simp)
      · have hbc2 : b = c := le_antisymm (not_lt.mp hcb) (not_lt.mp hbc)
        subst hbc2
        simp [lexLe, hab]
    · by_cases hba : b < a
      · rw [lexLe, if_neg hab, if_pos hba] at h1
        exact absurd h1 (by simp)
      · have hab2 : a = b := le_antisymm (not_lt.mp hba) (not_lt.mp hab)
        subst hab2
        simp [lexLe, hbc]
    · by_cases hba : b < a
      · rw [lexLe, if_neg hab, if_pos hba] at h1
        exact absurd h1 (by simp)
      · by_cases hcb : c < b
        · rw [lexLe, if_neg hbc, if_pos hcb] at h2
          exact absurd h2 (by simp)
        · have hab2 : a = b := le_antisymm (not_lt.mp hba) (not_lt.mp hab)
          have hbc2 : b = c := le_antisymm (not_lt.mp hcb) (not_lt.mp hbc)
          subst hab2
          subst hbc2
          rw [lexLe, if_neg hab, if_neg hab] at h1 h2 ⊢
          exact lexLe_trans as bs cs h1 h2

/-- Claim C8: the result-set ordering is all-or-nothing: if every seat
number parses as an integer the rows are sorted ascending by that
integer; if any seat number fails to parse, the whole set is sorted
lexicographically by the seat string — never a per-record mix. On the
spec's example the seats `"1", "2", "10", "N/A"` sort as
`"1", "10", "2", "N/A"`. -/
theorem claim_seat_sort :
    (∀ rows : List Row, rows.all (fun r => (pyInt r.seat).isSome) = true →
        List.Sorted rowLeNum (sortRows rows) ∧ List.Perm (sortRows rows) rows) ∧
      (∀ rows : List Row, rows.all (fun r => (pyInt r.seat).isSome) = false →
          List.Sorted rowLeStr (sortRows rows) ∧ List.Perm (sortRows rows) rows) ∧
      (sortRows sampleRows).map Row.seat = ["1", "10", "2", "N/A"] := by
  haveI : IsTotal Row rowLeStr := ⟨fun a b => lexLe_total a.seat.data b.seat.data⟩
  haveI : IsTrans Row rowLeStr :=
    ⟨fun a b c h1 h2 => lexLe_trans a.seat.data b.seat.data c.seat.data h1 h2⟩
  refine ⟨fun rows h => ?_, fun rows h => ?_, by decide⟩
  · unfold sortRows
    rw [if_pos h]
    exact ⟨List.sorted_insertionSort rowLeNum rows,
      List.perm_insertionSort rowLeNum rows⟩
  · unfold sortRows
    rw [if_neg (by simp [h])]
    exact ⟨List.sorted_insertionSort rowLeStr rows,
      List.perm_insertionSort rowLeStr rows⟩

/-- Witness for C8: a fully numeric set sorts numerically, and the mixed
sample set takes the lexicographic branch. -/
theorem claim_seat_sort_witness :
    (List.Sorted rowLeNum (sortRows sampleNumRows) ∧
        List.Perm (sortRows sampleNumRows) sampleNumRows) ∧
      List.Sorted rowLeStr (sortRows sampleRows) ∧
        List.Perm (sortRows sampleRows) sampleRows :=
  ⟨claim_seat_sort.1 sampleNumRows (by decide),
    claim_seat_sort.2.1 sampleRows (by decide)⟩

theorem runBatch_append (parse : String → Option ScoreData) (n : Nat)
    (l₁ l₂ : List (String × ApiResult)) :
    runBatch parse n (l₁ ++ l₂) =
      ((runBatch parse n l₁).1 ++ (runBatch parse n l₂).1,
        (runBatch parse n l₁).2 ++ (runBatch parse n l₂).2) := by
  induction l₁ with
  | nil => simp [runBatch]
  | cons f rest ih =>
    cases h : process_image_with_gemini parse f.2 with
    | error e => simp [runBatch, h, ih]
    | ok d => simp [runBatch, h, ih]

/-- Claim C9: an extraction failure on one file — an API exception, or
JSON that still fails to parse after the markdown code fences are
stripped — becomes a per-file error message; the file contributes no
result row, and the batch continues: the rows and messages of the
remaining files are exactly those produced without the failing file. -/
theorem claim_batch_isolation :
    (∀ (parse : String → Option ScoreData) (m : String),
        process_image_with_gemini parse (ApiResult.exn m) = Except.error m) ∧
      (∀ (parse : String → Option ScoreData) (t : String),
          parse (cleanJson t) = none →
          process_image_with_gemini parse (ApiResult.reply t)
            = Except.error jsonErrMsg) ∧
      ∀ (parse : String → Option ScoreData) (top_n : Nat)
        (pre post : List (String × ApiResult)) (name : String)
        (r : ApiResult) (e : String),
        process_image_with_gemini parse r = Except.error e →
        runBatch parse top_n (pre ++ (name, r) :: post) =
          ((runBatch parse top_n pre).1 ++ (runBatch parse top_n post).1,
            (runBatch parse top_n pre).2
              ++ errMsg name e :: (runBatch parse top_n post).2) := by
  refine ⟨fun parse m => rfl, fun parse t h => ?_, ?_⟩
  · simp [process_image_with_gemini, h]
  · intro parse top_n pre post name r e herr
    rw [runBatch_append]
    simp [runBatch, herr]

/-- Witness for C9: in a three-file batch whose middle file's API call
raises, the error is reported for that file, it contributes no row, and
the first and last files are processed as usual. -/
theorem claim_batch_isolation_witness :
    runBatch toyParse 2
        ([("a.jpg", ApiResult.reply "OK")]
          ++ ("b.jpg", ApiResult.exn "boom") :: [("c.jpg", ApiResult.reply "OK")]) =
      ((runBatch toyParse 2 [("a.jpg", ApiResult.reply "OK")]).1
          ++ (runBatch toyParse 2 [("c.jpg", ApiResult.reply "OK")]).1,
        (runBatch toyParse 2 [("a.jpg", ApiResult.reply "OK")]).2
          ++ errMsg "b.jpg" "boom"
            :: (runBatch toyParse 2 [("c.jpg", ApiResult.reply "OK")]).2) :=
  claim_batch_isolation.2.2 toyParse 2 _ _ "b.jpg" (ApiResult.exn "boom") "boom" rfl

end Grades
